import Mathlib

set_option maxRecDepth 100000

/-!
Verification development for the Nexus membership-key system
(`membership_key_system.py`) and its QR presentation adapter
(`qr_code_generator.py`).

Python strings are modelled as `List Char` (`PyStr`); Python `ord` is
`Char.toNat` (both are Unicode code points).  Machine words are `Nat`
reduced mod `2^32` / `2^64` where the original arithmetic overflows.
Fallible Python code (uncaught exceptions) is modelled with `Except`.

The standard-library collaborators that the source calls —
`hashlib.sha256`, `hashlib.sha512` (used inside `random.seed` for
strings) and the `random` module's Mersenne-Twister generator — are
embedded concretely below, following FIPS 180-4 and CPython's
`_randommodule.c` / `Lib/random.py`.
-/

abbrev PyStr := List Char

/-- Python `string.ascii_uppercase`. -/
def ascii_uppercase : PyStr := ("ABCDEFGHIJKLMNOPQRSTUVWXYZ").data

/-- Python `string.digits`. -/
def ascii_digits : PyStr := ("0123456789").data

/-- Lowercase hexadecimal digit table (as used by `hexdigest`). -/
def hexLowerTable : PyStr := ("0123456789abcdef").data

/-- Uppercase hexadecimal digit table (as used by `%X` formatting). -/
def hexUpperTable : PyStr := ("0123456789ABCDEF").data

def hexDigitL (n : Nat) : Char := hexLowerTable.getD (n % 16) '0'

def hexDigitU (n : Nat) : Char := hexUpperTable.getD (n % 16) '0'

/-- Python's `upper()` on the characters that occur in this code base
(ASCII); modelled by `Char.toUpper`, which uppercases exactly the ASCII
letters. -/
def pyUpper (s : PyStr) : PyStr := s.map Char.toUpper

/-- Python's `lower()` (ASCII fragment, via `Char.toLower`). -/
def pyLower (s : PyStr) : PyStr := s.map Char.toLower

/-- Uppercase-hex rendering of a natural number with no padding, as
Python's `format(n, 'X')`: `0` renders as `"0"`.  Written with explicit
fuel so that it reduces inside the kernel; `n + 1` units of fuel always
suffice because the value shrinks by a factor of 16 each step. -/
def toHexUpperAux : Nat → Nat → PyStr
  | 0, _ => []
  | f + 1, n =>
    if n < 16 then [hexDigitU n]
    else toHexUpperAux f (n / 16) ++ [hexDigitU (n % 16)]

def toHexUpper (n : Nat) : PyStr := toHexUpperAux (n + 1) n

/-- Python `format(n, '02X')`: uppercase hex, left-padded with `'0'` to
width 2. -/
def pad2Hex (n : Nat) : PyStr :=
  let h := toHexUpper n
  List.replicate (2 - h.length) '0' ++ h

/-- Python `str.index` restricted to single characters: position of the
first occurrence, `none` when absent (Python raises `ValueError`). -/
def listIndex (s : PyStr) (c : Char) : Option Nat :=
  s.findIdx? (fun x => x = c)

/-- Python `str.split(sep)` for a single-character separator: auxiliary
accumulator form. -/
def splitOnCharAux (c : Char) : PyStr → PyStr → List PyStr
  | [], acc => [acc.reverse]
  | x :: xs, acc =>
    if x = c then acc.reverse :: splitOnCharAux c xs []
    else splitOnCharAux c xs (x :: acc)

/-- Python `str.split(sep)` for a single-character separator. -/
def splitOnChar (c : Char) (s : PyStr) : List PyStr :=
  splitOnCharAux c s []

/-- Python whitespace (the characters `str.split()` splits on, for the
ASCII range). -/
def isPySpace (c : Char) : Bool :=
  c = ' ' ∨ c = '\t' ∨ c = '\n' ∨ c = '\x0d' ∨ c = '\x0b' ∨ c = '\x0c'

/-- Python `str.split()` with no argument: split on whitespace runs,
discarding empty fields.  Accumulator form. -/
def pySplitWSAux : PyStr → PyStr → List PyStr
  | [], acc => if acc.isEmpty then [] else [acc.reverse]
  | x :: xs, acc =>
    if isPySpace x then
      if acc.isEmpty then pySplitWSAux xs []
      else acc.reverse :: pySplitWSAux xs []
    else pySplitWSAux xs (x :: acc)

def pySplitWS (s : PyStr) : List PyStr := pySplitWSAux s []

/-- Value of a hexadecimal digit character, if any. -/
def hexVal (c : Char) : Option Nat :=
  if '0' ≤ c ∧ c ≤ '9' then some (c.toNat - '0'.toNat)
  else if 'a' ≤ c ∧ c ≤ 'f' then some (c.toNat - 'a'.toNat + 10)
  else if 'A' ≤ c ∧ c ≤ 'F' then some (c.toNat - 'A'.toNat + 10)
  else none

def pyIntHexDigits : PyStr → Option Nat
  | [] => none
  | l => l.foldl (fun acc c => do pure ((← acc) * 16 + (← hexVal c))) (some 0)

/-- Python `int(s, 16)`: optional sign followed by hex digits; empty or
malformed input raises `ValueError`, modelled as `none`.  (Python
additionally strips surrounding whitespace and allows `_` separators;
those inputs never arise here and are treated as malformed.) -/
def pyIntHex : PyStr → Option Int
  | '-' :: rest => (pyIntHexDigits rest).map (fun n => -(n : Int))
  | '+' :: rest => (pyIntHexDigits rest).map (fun n => (n : Int))
  | s => (pyIntHexDigits s).map (fun n => (n : Int))

/-- UTF-8 encoding of one character (Python `str.encode()`). -/
def utf8EncodeChar (c : Char) : List Nat :=
  let n := c.toNat
  if n < 128 then [n]
  else if n < 2048 then [192 + n / 64, 128 + n % 64]
  else if n < 65536 then [224 + n / 4096, 128 + (n / 64) % 64, 128 + n % 64]
  else [240 + n / 262144, 128 + (n / 4096) % 64, 128 + (n / 64) % 64, 128 + n % 64]

/-- UTF-8 encoding of a string (Python `str.encode()`). -/
def utf8Encode (s : PyStr) : List Nat := (s.map utf8EncodeChar).flatten

/-! ### Generic byte/word plumbing shared by the two hash functions -/

def mask32 (n : Nat) : Nat := n % 4294967296

def mask64 (n : Nat) : Nat := n % 18446744073709551616

def rotr32 (k x : Nat) : Nat := mask32 ((x >>> k) ||| (x <<< (32 - k)))

def rotr64 (k x : Nat) : Nat := mask64 ((x >>> k) ||| (x <<< (64 - k)))

/-- Big-endian value of a byte list. -/
def bytesToNatBE (bs : List Nat) : Nat := bs.foldl (fun a b => a * 256 + b) 0

/-- The `k`-byte big-endian encoding of `n`. -/
def natToBytesBE (k n : Nat) : List Nat :=
  (List.range k).map (fun i => (n >>> (8 * (k - 1 - i))) % 256)

/-- Split a list into chunks of `k` elements (fuel = list length). -/
def chunksGo (k : Nat) : Nat → List Nat → List (List Nat)
  | 0, _ => []
  | _ + 1, [] => []
  | fuel + 1, l => l.take k :: chunksGo k fuel (l.drop k)

def chunks (k : Nat) (l : List Nat) : List (List Nat) := chunksGo k l.length l

/-! ### SHA-256 (FIPS 180-4), backing `hashlib.sha256` -/

def K256 : List Nat :=
  [1116352408, 1899447441, 3049323471, 3921009573, 961987163, 1508970993, 2453635748, 2870763221,
   3624381080, 310598401, 607225278, 1426881987, 1925078388, 2162078206, 2614888103, 3248222580,
   3835390401, 4022224774, 264347078, 604807628, 770255983, 1249150122, 1555081692, 1996064986,
   2554220882, 2821834349, 2952996808, 3210313671, 3336571891, 3584528711, 113926993, 338241895,
   666307205, 773529912, 1294757372, 1396182291, 1695183700, 1986661051, 2177026350, 2456956037,
   2730485921, 2820302411, 3259730800, 3345764771, 3516065817, 3600352804, 4094571909, 275423344,
   430227734, 506948616, 659060556, 883997877, 958139571, 1322822218, 1537002063, 1747873779,
   1955562222, 2024104815, 2227730452, 2361852424, 2428436474, 2756734187, 3204031479, 3329325298]

def H256i : List Nat :=
  [1779033703, 3144134277, 1013904242, 2773480762, 1359893119, 2600822924, 528734635, 1541459225]

/-- Message-schedule extension; `acc` holds the words produced so far in
reverse order. -/
def sha256ExtendGo : Nat → List Nat → List Nat
  | 0, acc => acc.reverse
  | k + 1, acc =>
    let w2 := acc.getD 1 0
    let w7 := acc.getD 6 0
    let w15 := acc.getD 14 0
    let w16 := acc.getD 15 0
    let s0 := (rotr32 7 w15) ^^^ (rotr32 18 w15) ^^^ (w15 >>> 3)
    let s1 := (rotr32 17 w2) ^^^ (rotr32 19 w2) ^^^ (w2 >>> 10)
    sha256ExtendGo k (mask32 (w16 + s0 + w7 + s1) :: acc)

structure Sha8 where
  a : Nat
  b : Nat
  c : Nat
  d : Nat
  e : Nat
  f : Nat
  g : Nat
  h : Nat

def sha256Round (st : Sha8) (kw : Nat × Nat) : Sha8 :=
  let S1 := rotr32 6 st.e ^^^ rotr32 11 st.e ^^^ rotr32 25 st.e
  let ch := (st.e &&& st.f) ^^^ ((4294967295 - st.e) &&& st.g)
  let temp1 := mask32 (st.h + S1 + ch + kw.1 + kw.2)
  let S0 := rotr32 2 st.a ^^^ rotr32 13 st.a ^^^ rotr32 22 st.a
  let maj := (st.a &&& st.b) ^^^ (st.a &&& st.c) ^^^ (st.b &&& st.c)
  let temp2 := mask32 (S0 + maj)
  ⟨mask32 (temp1 + temp2), st.a, st.b, st.c, mask32 (st.d + temp1), st.e, st.f, st.g⟩

def sha256Compress (h : List Nat) (block : List Nat) : List Nat :=
  let w16 := (chunks 4 block).map bytesToNatBE
  let w := sha256ExtendGo 48 w16.reverse
  let st0 : Sha8 := ⟨h.getD 0 0, h.getD 1 0, h.getD 2 0, h.getD 3 0,
                     h.getD 4 0, h.getD 5 0, h.getD 6 0, h.getD 7 0⟩
  let st := (K256.zip w).foldl sha256Round st0
  [mask32 (st0.a + st.a), mask32 (st0.b + st.b), mask32 (st0.c + st.c),
   mask32 (st0.d + st.d), mask32 (st0.e + st.e), mask32 (st0.f + st.f),
   mask32 (st0.g + st.g), mask32 (st0.h + st.h)]

/-- SHA-256 digest (32 bytes) of a byte string. -/
def sha256Bytes (msg : List Nat) : List Nat :=
  let z := (119 - (msg.length % 64)) % 64
  let padded := msg ++ 128 :: (List.replicate z 0 ++ natToBytesBE 8 (8 * msg.length))
  let hfin := (chunks 64 padded).foldl sha256Compress H256i
  hfin.foldr (fun w acc => natToBytesBE 4 w ++ acc) []

/-- Python `hashlib.sha256(b).hexdigest()`: lowercase hex string. -/
def sha256hexdigest (msg : List Nat) : PyStr :=
  (sha256Bytes msg).foldr (fun b acc => hexDigitL (b / 16) :: hexDigitL (b % 16) :: acc) []

/-! ### SHA-512 (FIPS 180-4), backing the `hashlib.sha512` call inside
`random.seed` for string seeds -/

def K512 : List Nat :=
  [4794697086780616226, 8158064640168781261, 13096744586834688815, 16840607885511220156,
   4131703408338449720, 6480981068601479193, 10538285296894168987, 12329834152419229976,
   15566598209576043074, 1334009975649890238, 2608012711638119052, 6128411473006802146,
   8268148722764581231, 9286055187155687089, 11230858885718282805, 13951009754708518548,
   16472876342353939154, 17275323862435702243, 1135362057144423861, 2597628984639134821,
   3308224258029322869, 5365058923640841347, 6679025012923562964, 8573033837759648693,
   10970295158949994411, 12119686244451234320, 12683024718118986047, 13788192230050041572,
   14330467153632333762, 15395433587784984357, 489312712824947311, 1452737877330783856,
   2861767655752347644, 3322285676063803686, 5560940570517711597, 5996557281743188959,
   7280758554555802590, 8532644243296465576, 9350256976987008742, 10552545826968843579,
   11727347734174303076, 12113106623233404929, 14000437183269869457, 14369950271660146224,
   15101387698204529176, 15463397548674623760, 17586052441742319658, 1182934255886127544,
   1847814050463011016, 2177327727835720531, 2830643537854262169, 3796741975233480872,
   4115178125766777443, 5681478168544905931, 6601373596472566643, 7507060721942968483,
   8399075790359081724, 8693463985226723168, 9568029438360202098, 10144078919501101548,
   10430055236837252648, 11840083180663258601, 13761210420658862357, 14299343276471374635,
   14566680578165727644, 15097957966210449927, 16922976911328602910, 17689382322260857208,
   500013540394364858, 748580250866718886, 1242879168328830382, 1977374033974150939,
   2944078676154940804, 3659926193048069267, 4368137639120453308, 4836135668995329356,
   5532061633213252278, 6448918945643986474, 6902733635092675308, 7801388544844847127]

def H512i : List Nat :=
  [7640891576956012808, 13503953896175478587, 4354685564936845355, 11912009170470909681,
   5840696475078001361, 11170449401992604703, 2270897969802886507, 6620516959819538809]

def sha512ExtendGo : Nat → List Nat → List Nat
  | 0, acc => acc.reverse
  | k + 1, acc =>
    let w2 := acc.getD 1 0
    let w7 := acc.getD 6 0
    let w15 := acc.getD 14 0
    let w16 := acc.getD 15 0
    let s0 := (rotr64 1 w15) ^^^ (rotr64 8 w15) ^^^ (w15 >>> 7)
    let s1 := (rotr64 19 w2) ^^^ (rotr64 61 w2) ^^^ (w2 >>> 6)
    sha512ExtendGo k (mask64 (w16 + s0 + w7 + s1) :: acc)

def sha512Round (st : Sha8) (kw : Nat × Nat) : Sha8 :=
  let S1 := rotr64 14 st.e ^^^ rotr64 18 st.e ^^^ rotr64 41 st.e
  let ch := (st.e &&& st.f) ^^^ ((18446744073709551615 - st.e) &&& st.g)
  let temp1 := mask64 (st.h + S1 + ch + kw.1 + kw.2)
  let S0 := rotr64 28 st.a ^^^ rotr64 34 st.a ^^^ rotr64 39 st.a
  let maj := (st.a &&& st.b) ^^^ (st.a &&& st.c) ^^^ (st.b &&& st.c)
  let temp2 := mask64 (S0 + maj)
  ⟨mask64 (temp1 + temp2), st.a, st.b, st.c, mask64 (st.d + temp1), st.e, st.f, st.g⟩

def sha512Compress (h : List Nat) (block : List Nat) : List Nat :=
  let w16 := (chunks 8 block).map bytesToNatBE
  let w := sha512ExtendGo 64 w16.reverse
  let st0 : Sha8 := ⟨h.getD 0 0, h.getD 1 0, h.getD 2 0, h.getD 3 0,
                     h.getD 4 0, h.getD 5 0, h.getD 6 0, h.getD 7 0⟩
  let st := (K512.zip w).foldl sha512Round st0
  [mask64 (st0.a + st.a), mask64 (st0.b + st.b), mask64 (st0.c + st.c),
   mask64 (st0.d + st.d), mask64 (st0.e + st.e), mask64 (st0.f + st.f),
   mask64 (st0.g + st.g), mask64 (st0.h + st.h)]

/-- SHA-512 digest (64 bytes) of a byte string. -/
def sha512Bytes (msg : List Nat) : List Nat :=
  let z := (239 - (msg.length % 128)) % 128
  let padded := msg ++ 128 :: (List.replicate z 0 ++ natToBytesBE 16 (8 * msg.length))
  let hfin := (chunks 128 padded).foldl sha512Compress H512i
  hfin.foldr (fun w acc => natToBytesBE 8 w ++ acc) []

/-! ### Mersenne Twister (MT19937) with CPython's seeding and draw
conventions (`_randommodule.c`, `Lib/random.py`).  The `random` module's
global generator state is threaded explicitly; `random.seed` replaces it,
`random.choice` advances it. -/

structure MTState where
  mt : List Nat
  mti : Nat
deriving DecidableEq

/-- A stand-in for the arbitrary global generator state a process starts
with; its exact contents are irrelevant because `generate_unique_pattern`
always reseeds. -/
def mtZero : MTState := ⟨List.replicate 624 0, 0⟩

/-- Tail of `init_genrand`: `mt[i] = 1812433253 * (mt[i-1] ^ (mt[i-1] >> 30)) + i`,
accumulated in reverse. -/
def igLoop : Nat → Nat → Nat → List Nat → List Nat
  | _, 0, _, acc => acc.reverse
  | i, k + 1, prev, acc =>
    let v := mask32 (1812433253 * (prev ^^^ (prev >>> 30)) + i)
    igLoop (i + 1) k v (v :: acc)

/-- MT19937 `init_genrand`. -/
def init_genrand (s : Nat) : List Nat :=
  let m0 := mask32 s
  m0 :: igLoop 1 623 m0 []

/-- First mixing pass of `init_by_array` over a tail of the state:
`mt[i] = (mt[i] ^ ((mt[i-1] ^ (mt[i-1] >> 30)) * 1664525)) + key[j] + j`,
with `j` cycling through the key.  Returns the rewritten tail together
with the final `(prev, j)`. -/
def ibaPass1 (key : List Nat) (klen : Nat) :
    List Nat → Nat → Nat → (List Nat × Nat × Nat)
  | [], j, prev => ([], j, prev)
  | cur :: rest, j, prev =>
    let v := mask32 ((cur ^^^ mask32 ((prev ^^^ (prev >>> 30)) * 1664525)) + key.getD j 0 + j)
    let j' := if j + 1 ≥ klen then 0 else j + 1
    let (rest', jf, pf) := ibaPass1 key klen rest j' v
    (v :: rest', jf, pf)

/-- Second mixing pass of `init_by_array`:
`mt[i] = (mt[i] ^ ((mt[i-1] ^ (mt[i-1] >> 30)) * 1566083941)) - i`. -/
def ibaPass2 : List Nat → Nat → Nat → (List Nat × Nat)
  | [], _, prev => ([], prev)
  | cur :: rest, i, prev =>
    let v := mask32 ((cur ^^^ mask32 ((prev ^^^ (prev >>> 30)) * 1566083941)) + 4294967296 - i)
    let (rest', pf) := ibaPass2 rest (i + 1) v
    (v :: rest', pf)

/-- One `init_by_array` step at a single index (used for the iterations
that wrap around to `i = 1`). -/
def ibaStep1At1 (key : List Nat) (m0 m1 : Nat) (j : Nat) : Nat :=
  mask32 ((m1 ^^^ mask32 ((m0 ^^^ (m0 >>> 30)) * 1664525)) + key.getD j 0 + j)

def ibaStep2At1 (m0 m1 : Nat) : Nat :=
  mask32 ((m1 ^^^ mask32 ((m0 ^^^ (m0 >>> 30)) * 1566083941)) + 4294967296 - 1)

/-- MT19937 `init_by_array` for a key of at most 624 words (always the
case for the seeds arising here, which have at most ~25 words).  The C
loop runs `max(624, klen) = 624` iterations at indices `1..623` followed
by a wrap to index `1`; then 623 subtractive iterations at `2..623` and
a wrap to index `1`; finally `mt[0] = 0x80000000`. -/
def init_by_array (key : List Nat) : List Nat :=
  let klen := key.length
  let base := init_genrand 19650218
  let m0 := base.getD 0 0
  -- first loop, iterations at i = 1 .. 623
  let (tail1, j623, p623) := ibaPass1 key klen (base.drop 1) 0 m0
  -- i reaches 624: mt[0] := mt[623]
  let m0a := p623
  -- iteration 624 of the first loop, at i = 1
  let m1a := ibaStep1At1 key m0a (tail1.getD 0 0) j623
  -- second loop, 623 iterations starting at i = 2
  let (tail2, q623) := ibaPass2 (tail1.drop 1) 2 m1a
  -- i reaches 624: mt[0] := mt[623]; final iteration at i = 1
  let m1b := ibaStep2At1 q623 m1a
  2147483648 :: m1b :: tail2

def temper (y : Nat) : Nat :=
  let y := y ^^^ (y >>> 11)
  let y := y ^^^ mask32 ((y <<< 7) &&& 2636928640)
  let y := y ^^^ mask32 ((y <<< 15) &&& 4022730752)
  y ^^^ (y >>> 18)

def twistVal (cur next src : Nat) : Nat :=
  let y := (cur &&& 2147483648) ||| (next &&& 2147483647)
  (src ^^^ (y >>> 1)) ^^^ (if y % 2 = 1 then 2567483615 else 0)

/-- Middle phase of the state regeneration: each new word consumes the
head of a queue of source words (227 positions behind it) and is pushed
onto the queue's back. -/
def twistPhase2 : List (Nat × Nat) → List Nat → List Nat → List Nat → List Nat
  | [], _, _, acc => acc.reverse
  | (cur, next) :: rest, qfront, qback, acc =>
    match qfront with
    | src :: qf =>
      let nv := twistVal cur next src
      twistPhase2 rest qf (nv :: qback) (nv :: acc)
    | [] =>
      match qback.reverse with
      | src :: qf =>
        let nv := twistVal cur next src
        twistPhase2 rest qf [nv] (nv :: acc)
      | [] => acc.reverse

/-- MT19937 block regeneration (the `mti >= N` branch of
`genrand_uint32`). -/
def twist (old : List Nat) : List Nat :=
  let part1 := List.zipWith3 twistVal old (old.drop 1) (old.drop 397)
  let olds2 := old.drop 227
  let part2 := twistPhase2 (olds2.zip (olds2.drop 1)) part1 [] []
  let upto := part1 ++ part2
  upto ++ [twistVal (old.getD 623 0) (upto.getD 0 0) (upto.getD 396 0)]

/-- `genrand_uint32`: regenerate when the index is exhausted, then emit
the tempered word at the index. -/
def genrand_uint32 (g : MTState) : Nat × MTState :=
  let (mt, idx) := if g.mti ≥ 624 then (twist g.mt, 0) else (g.mt, g.mti)
  (temper (mt.getD idx 0), ⟨mt, idx + 1⟩)

/-- `getrandbits(k)` for `k ≤ 32`: top `k` bits of one 32-bit draw. -/
def getrandbits (k : Nat) (g : MTState) : Nat × MTState :=
  let (y, g') := genrand_uint32 g
  (y >>> (32 - k), g')

def bitLength (n : Nat) : Nat := if n = 0 then 0 else Nat.log2 n + 1

/-- Retry loop of `_randbelow_with_getrandbits`.  The Python loop retries
until `r < n`; each retry succeeds with probability `≥ n / 2^k > 1/2`,
so 64 retries are never exhausted for the concrete seeds that occur (the
fuel-0 fallback `r % n` keeps the function total and in range). -/
def rbLoop (n k : Nat) : Nat → MTState → Nat × MTState
  | 0, g =>
    let (r, g') := getrandbits k g
    (r % n, g')
  | fuel + 1, g =>
    let (r, g') := getrandbits k g
    if r < n then (r, g') else rbLoop n k fuel g'

/-- `Random._randbelow_with_getrandbits(n)` for `n > 0`. -/
def randbelow (n : Nat) (g : MTState) : Nat × MTState :=
  rbLoop n (bitLength n) 64 g

/-- `random.choice(seq)` for a nonempty sequence. -/
def pyChoice (seq : PyStr) (g : MTState) : Char × MTState :=
  let (r, g') := randbelow seq.length g
  (seq.getD r 'A', g')

/-- The integer `random.seed` derives from a string seed:
`int.from_bytes(b + sha512(b).digest(), 'big')` where `b` is the UTF-8
encoding. -/
def pySeedInt (b : List Nat) : Nat := bytesToNatBE (b ++ sha512Bytes b)

/-- Little-endian base-2^32 words of `n` (at least one word), as
`random_seed` in `_randommodule.c` slices the seed integer. -/
def natToWordsLE : Nat → Nat → List Nat
  | 0, _ => []
  | fuel + 1, n =>
    if n < 4294967296 then [n]
    else mask32 n :: natToWordsLE fuel (n >>> 32)

/-- `random.seed(s)` for a string `s`: the resulting global generator
state (index 624 forces a regeneration on the first draw). -/
def seedState (s : PyStr) : MTState :=
  let n := pySeedInt (utf8Encode s)
  ⟨init_by_array (natToWordsLE (n + 1) n), 624⟩

/-! ### The membership key system (`membership_key_system.py`) -/

/-- One entry of `USER_TIERS`.  (`prefix` is a reserved word in Lean, so
the field is named `pfx`.) -/
structure Tier where
  id : Nat
  name : PyStr
  separator : Char
  pfx : PyStr
deriving DecidableEq

/-- The `USER_TIERS` dict, as its (insertion-ordered) item list. -/
def USER_TIERS : List (PyStr × Tier) :=
  [(("ARCHIVIST").data, ⟨1, ("Archivist").data, '-', ("ARK").data⟩),
   (("ORCHESTRATOR").data, ⟨2, ("Orchestrator").data, ':', ("ORC").data⟩),
   (("GODFATHER").data, ⟨3, ("Godfather").data, '∞', ("GOD").data⟩),
   (("ENTITY").data, ⟨4, ("Entity").data, '⟡', ("NXS").data⟩)]

/-- The module constant `SPECIAL_CHARS` (braces written as escapes). -/
def SPECIAL_CHARS : PyStr := ("!@#$%^&*~=-_+[]\x7b\x7d|;:,./<>?").data

/-- Exceptions that can escape the modelled functions. -/
inductive PyExc where
  | keyError
  | indexError
  | valueError
deriving DecidableEq

deriving instance DecidableEq for Except

/-- A `datetime` value as the source consumes it: the calendar fields
used by `encode_timestamp`, plus the text of `str(self.timestamp())`
used (only) to build the PRNG seed.  The timestamp text is carried as a
field because `datetime.timestamp()` of a naive datetime depends on the
ambient timezone, which is outside the program. -/
structure PyDateTime where
  year : Nat
  month : Nat
  day : Nat
  tsRepr : PyStr
deriving DecidableEq

/-- Python dict-style lookup in an association list (first match). -/
def lookupAssoc (l : List (PyStr × PyStr)) (k : PyStr) : Option PyStr :=
  (l.find? (fun p => p.1 = k)).map (fun p => p.2)

/-- `create_user_hash`: first 6 hex characters of SHA-256 of the user
id, uppercased. -/
def create_user_hash (user_id : PyStr) : PyStr :=
  pyUpper ((sha256hexdigest (utf8Encode user_id)).take 6)

/-- `encode_tier`: `string.ascii_uppercase[tier_id - 1]`.  All call
sites use the table ids 1–4, so the index is always in range. -/
def encode_tier (tier_id : Nat) : Char :=
  ascii_uppercase.getD (tier_id - 1) 'A'

/-- `encode_timestamp`: `f"{year % 100:02X}{month:X}{day:02X}"`. -/
def encode_timestamp (date : PyDateTime) : PyStr :=
  pad2Hex (date.year % 100) ++ toHexUpper date.month ++ pad2Hex date.day

/-- The constant `string.ascii_uppercase + string.digits` from
`generate_unique_pattern`. -/
def patternChars : PyStr := ascii_uppercase ++ ascii_digits

/-- The 12-iteration loop of `generate_unique_pattern`; `i` is the loop
index, `k` the remaining count. -/
def patternGo : Nat → Nat → MTState → PyStr → PyStr × MTState
  | _, 0, g, acc => (acc.reverse, g)
  | i, k + 1, g, acc =>
    let (c, g') := if i % 4 = 3 then pyChoice SPECIAL_CHARS g else pyChoice patternChars g
    patternGo (i + 1) k g' (c :: acc)

/-- `generate_unique_pattern(seed)`: reseeds the module-global generator
(discarding the incoming state `_g`) and draws 12 characters. -/
def generate_unique_pattern (seed : PyStr) (_g : MTState) : PyStr × MTState :=
  patternGo 0 12 (seedState seed) []

/-- `generate_personal_element`.  `user_attributes` models the optional
dict: `[]` stands for both `None` and `{}` (which are equally falsy in
the `if user_attributes and 'name' in user_attributes` guard). -/
def generate_personal_element (user_attributes : List (PyStr × PyStr)) (user_id : PyStr) : PyStr :=
  match user_attributes, lookupAssoc user_attributes (("name").data) with
  | _ :: _, some nm =>
    ((pySplitWS nm).take 2).map (fun p => Char.toUpper (p.headD 'A'))
  | _, _ => (create_user_hash user_id).take 2

/-- The weighted character sum inside `calculate_checksum`:
`sum(ord(c) * (i + 1) for i, c in enumerate(input_str))`. -/
def weightedSum (s : PyStr) : Nat :=
  (s.enum.map (fun p => p.2.toNat * (p.1 + 1))).sum

/-- `calculate_checksum`: `f"{s % 36:X}{(s * 13) % 36:X}"`. -/
def calculate_checksum (input_str : PyStr) : PyStr :=
  let s := weightedSum input_str
  toHexUpper (s % 36) ++ toHexUpper ((s * 13) % 36)

/-- `format_key`: the five fields joined by the tier separator (segment
D and the personal element are concatenated without a separator). -/
def format_key (segmentA segmentB segmentC segmentD personalElement checksum : PyStr)
    (tier : Tier) : PyStr :=
  segmentA ++ tier.separator ::
    (segmentB ++ tier.separator ::
      (segmentC ++ tier.separator ::
        (segmentD ++ personalElement ++ tier.separator :: checksum)))

/-- `USER_TIERS[k]`: dict lookup by key. -/
def lookupTier (k : PyStr) : Option (PyStr × Tier) :=
  USER_TIERS.find? (fun p => p.1 = k)

/-- `generate_membership_key`.  The module-global PRNG state is threaded
explicitly (`g` in, the post-call state out); an unknown tier raises
`KeyError` before the generator is touched. -/
def generate_membership_key (user_id tier_name : PyStr) (registration_date : PyDateTime)
    (user_attributes : List (PyStr × PyStr)) (g : MTState) :
    Except PyExc PyStr × MTState :=
  match lookupTier (pyUpper tier_name) with
  | none => (.error .keyError, g)
  | some (_, tier) =>
    let user_hash := create_user_hash user_id
    let tier_identifier := encode_tier tier.id
    let time_signature := encode_timestamp registration_date
    let pg := generate_unique_pattern (user_id ++ registration_date.tsRepr) g
    let unique_pattern := pg.1
    let segmentA := tier.pfx ++ user_hash.take 3
    let segmentB := tier_identifier :: unique_pattern.take 4
    let segmentC := time_signature
    let segmentD := (unique_pattern.drop 4).take 4
    let personal_element := generate_personal_element user_attributes user_id
    let base_key := segmentA ++ segmentB ++ segmentC ++ segmentD ++ personal_element
    let checksum := calculate_checksum base_key
    (.ok (format_key segmentA segmentB segmentC segmentD personal_element checksum tier), pg.2)

/-- The decoded-identity dict returned by `validate_membership_key`:
either the `valid: False` shape with its error message, or the
`valid: True` shape with the decoded fields. -/
inductive ValidationResult where
  | invalid (error : PyStr)
  | valid (user_id : PyStr) (tier_name : PyStr) (tier_level : Nat)
      (registration_date : Option (Nat × Nat × Nat)) (personal_element : PyStr)
deriving DecidableEq

/-- Whether a Gregorian calendar date is accepted by the `datetime`
constructor (year 1–9999, month 1–12, day within the month). -/
def daysInMonth (y m : Int) : Int :=
  if m = 2 then (if y % 4 = 0 ∧ (y % 100 ≠ 0 ∨ y % 400 = 0) then 29 else 28)
  else if m = 4 ∨ m = 6 ∨ m = 9 ∨ m = 11 then 30
  else 31

def datetimeValid (y m d : Int) : Bool :=
  1 ≤ y ∧ y ≤ 9999 ∧ 1 ≤ m ∧ m ≤ 12 ∧ 1 ≤ d ∧ d ≤ daysInMonth y m

/-- The `try`-block of `validate_membership_key` that reconstructs the
registration date from the time signature; every exception inside it
(bad hex, short string, invalid calendar date) is caught and collapses
to `None`. -/
def parseRegistrationDate (ts : PyStr) : Option (Nat × Nat × Nat) := do
  let y ← pyIntHex (ts.take 2)
  let c ← ts.get? 2
  let m ← pyIntHex [c]
  let d ← pyIntHex (ts.drop 3)
  let year := y + 2000
  if datetimeValid year m d then some (year.toNat, m.toNat, d.toNat) else none

/-- The tier-scanning loop at the top of `validate_membership_key`:
first tier (in dict order) whose prefix starts the key and whose
separator occurs in the key. -/
def findTier : List (PyStr × Tier) → PyStr → Option (PyStr × Tier)
  | [], _ => none
  | (n, t) :: rest, key =>
    if t.pfx.isPrefixOf key ∧ t.separator ∈ key then some (n, t)
    else findTier rest key

/-- The body of `validate_membership_key` after the structure check, on
the five unpacked segments
(`segmentA, segmentB, segmentC, segmentD_personal, checksum = segments`).
Uncaught exceptions are surfaced as `Except.error`: `segmentB[0]` on an
empty segment raises `IndexError`, and `string.ascii_uppercase.index` on
a character that is not an uppercase letter raises `ValueError`. -/
def validateCore (name : PyStr) (tier : Tier)
    (segmentA segmentB segmentC segmentD_personal checksum : PyStr) :
    Except PyExc ValidationResult :=
  let segmentD := segmentD_personal.take (segmentD_personal.length - 2)
  let personal_element := segmentD_personal.drop (segmentD_personal.length - 2)
  let reconstructed := segmentA ++ segmentB ++ segmentC ++ segmentD ++ personal_element
  let calculated_checksum := calculate_checksum reconstructed
  if checksum ≠ calculated_checksum then .ok (.invalid (("Invalid checksum").data))
  else
    match segmentB with
    | [] => .error .indexError
    | tier_identifier :: _ =>
      match listIndex ascii_uppercase tier_identifier with
      | none => .error .valueError
      | some idx =>
        if idx + 1 ≠ tier.id then .ok (.invalid (("Tier identifier mismatch").data))
        else
          .ok (.valid (("user_").data ++ segmentA.drop 3) name tier.id
            (parseRegistrationDate segmentC) personal_element)

def validate_membership_key (membership_key : PyStr) : Except PyExc ValidationResult :=
  match findTier USER_TIERS membership_key with
  | none => .ok (.invalid (("Unknown key format").data))
  | some (name, tier) =>
    let segments := splitOnChar tier.separator membership_key
    if segments.length ≠ 5 then .ok (.invalid (("Invalid key structure").data))
    else
      validateCore name tier (segments.getD 0 []) (segments.getD 1 [])
        (segments.getD 2 []) (segments.getD 3 []) (segments.getD 4 [])

/-! ### The QR presentation adapter (`qr_code_generator.py`) -/

structure QrData where
  membershipKey : PyStr
  validationURL : PyStr
  tier : PyStr
deriving DecidableEq

structure VisualStyle where
  style : PyStr
  mainColor : PyStr
  patternComplexity : Nat
  tierLevel : Nat
deriving DecidableEq

/-- The result dict of `generate_premium_qr_code`: the failure shape
(`success: False`, fixed error string, pass-through details) or the
success shape. -/
inductive QrResult where
  | failure (error : PyStr) (details : Option PyStr)
  | success (qrCodeData : QrData) (visualParameters : VisualStyle)
      (tierName : PyStr) (tierLevel : Nat)
deriving DecidableEq

/-- `_get_tier_color`: closed 4-entry color map with a default. -/
def _get_tier_color (tier_name : PyStr) : PyStr :=
  if tier_name = ("ARCHIVIST").data then ("#3A86FF").data
  else if tier_name = ("ORCHESTRATOR").data then ("#8338EC").data
  else if tier_name = ("GODFATHER").data then ("#FF006E").data
  else if tier_name = ("ENTITY").data then ("#FFBE0B").data
  else ("#10b981").data

/-- `generate_premium_qr_code` (the unused `user_data` parameter is
omitted).  An exception escaping `validate_membership_key` propagates. -/
def generate_premium_qr_code (membership_key : PyStr) : Except PyExc QrResult :=
  match validate_membership_key membership_key with
  | .error e => .error e
  | .ok (.invalid err) =>
    .ok (.failure (("Invalid membership key").data) (some err))
  | .ok (.valid _user_id tier_name tier_level _rd _pe) =>
    .ok (.success
      ⟨membership_key, ("https://nexus.io/validate/").data ++ membership_key, tier_name⟩
      ⟨pyLower tier_name, _get_tier_color tier_name, min (tier_level * 2) 10, tier_level⟩
      tier_name tier_level)

/-! ### Shared lemmas -/

theorem getD_mem_of_lt {l : PyStr} {i : Nat} {d : Char} (h : i < l.length) :
    l.getD i d ∈ l := by
  rw [List.getD_eq_getElem l d h]
  exact List.getElem_mem h

theorem splitOnCharAux_no_sep (c : Char) (a : PyStr) (acc : PyStr) (h : c ∉ a) :
    splitOnCharAux c a acc = [acc.reverse ++ a] := by
  induction a generalizing acc with
  | nil => simp [splitOnCharAux]
  | cons x xs ih =>
    have hx : ¬ x = c := fun hxc => h (hxc ▸ List.mem_cons_self x xs)
    simp only [splitOnCharAux, if_neg hx]
    rw [ih _ (fun hm => h (List.mem_cons_of_mem _ hm))]
    simp

theorem splitOnCharAux_sep (c : Char) (a rest : PyStr) (acc : PyStr) (h : c ∉ a) :
    splitOnCharAux c (a ++ c :: rest) acc = (acc.reverse ++ a) :: splitOnChar c rest := by
  induction a generalizing acc with
  | nil => simp [splitOnCharAux, splitOnChar]
  | cons x xs ih =>
    have hx : ¬ x = c := fun hxc => h (hxc ▸ List.mem_cons_self x xs)
    simp only [List.cons_append, splitOnCharAux, if_neg hx, List.append_eq]
    rw [ih _ (fun hm => h (List.mem_cons_of_mem _ hm))]
    simp

theorem splitOnChar_sep (c : Char) (a rest : PyStr) (h : c ∉ a) :
    splitOnChar c (a ++ c :: rest) = a :: splitOnChar c rest := by
  unfold splitOnChar
  rw [splitOnCharAux_sep c a rest [] h]
  simp [splitOnChar]

theorem splitOnChar_no_sep (c : Char) (a : PyStr) (h : c ∉ a) :
    splitOnChar c a = [a] := by
  unfold splitOnChar
  rw [splitOnCharAux_no_sep c a [] h]
  simp

theorem splitOnCharAux_length (c : Char) (s : PyStr) (acc : PyStr) :
    (splitOnCharAux c s acc).length = s.count c + 1 := by
  induction s generalizing acc with
  | nil => simp [splitOnCharAux]
  | cons x xs ih =>
    by_cases hx : x = c
    · subst hx
      simp [splitOnCharAux, ih]
    · simp only [splitOnCharAux, if_neg hx, ih, List.count_cons]
      simp [hx]

theorem splitOnChar_length (c : Char) (s : PyStr) :
    (splitOnChar c s).length = s.count c + 1 :=
  splitOnCharAux_length c s []

theorem hexDigitU_mem (n : Nat) : hexDigitU n ∈ hexUpperTable := by
  have h : n % 16 < hexUpperTable.length := by
    have : n % 16 < 16 := Nat.mod_lt _ (by decide)
    simpa [hexUpperTable] using this
  exact getD_mem_of_lt h

theorem hexDigitL_mem (n : Nat) : hexDigitL n ∈ hexLowerTable := by
  have h : n % 16 < hexLowerTable.length := by
    have : n % 16 < 16 := Nat.mod_lt _ (by decide)
    simpa [hexLowerTable] using this
  exact getD_mem_of_lt h

theorem toHexUpperAux_subset (fuel n : Nat) :
    ∀ ch ∈ toHexUpperAux fuel n, ch ∈ hexUpperTable := by
  induction fuel generalizing n with
  | zero => simp [toHexUpperAux]
  | succ f ih =>
    intro ch hch
    simp only [toHexUpperAux] at hch
    by_cases h : n < 16
    · rw [if_pos h] at hch
      simp at hch
      exact hch ▸ hexDigitU_mem n
    · rw [if_neg h] at hch
      rcases List.mem_append.mp hch with h1 | h2
      · exact ih _ _ h1
      · simp at h2
        exact h2 ▸ hexDigitU_mem _

theorem toHexUpper_subset (n : Nat) : ∀ ch ∈ toHexUpper n, ch ∈ hexUpperTable :=
  toHexUpperAux_subset (n + 1) n

theorem pad2Hex_subset (n : Nat) : ∀ ch ∈ pad2Hex n, ch ∈ hexUpperTable := by
  intro ch hch
  unfold pad2Hex at hch
  rcases List.mem_append.mp hch with h1 | h2
  · have := List.eq_of_mem_replicate h1
    subst this
    decide
  · exact toHexUpper_subset n ch h2

theorem calculate_checksum_subset (s : PyStr) :
    ∀ ch ∈ calculate_checksum s, ch ∈ hexUpperTable := by
  intro ch hch
  unfold calculate_checksum at hch
  rcases List.mem_append.mp hch with h1 | h2
  · exact toHexUpper_subset _ ch h1
  · exact toHexUpper_subset _ ch h2

theorem encode_timestamp_subset (d : PyDateTime) :
    ∀ ch ∈ encode_timestamp d, ch ∈ hexUpperTable := by
  intro ch hch
  unfold encode_timestamp at hch
  rcases List.mem_append.mp hch with h1 | h2
  · rcases List.mem_append.mp h1 with h3 | h4
    · exact pad2Hex_subset _ ch h3
    · exact toHexUpper_subset _ ch h4
  · exact pad2Hex_subset _ ch h2

theorem toHexUpper_eq_one {n : Nat} (h : n < 16) : toHexUpper n = [hexDigitU n] := by
  unfold toHexUpper toHexUpperAux
  rw [if_pos h]

theorem toHexUpper_eq_two {n : Nat} (h16 : 16 ≤ n) (h256 : n < 256) :
    toHexUpper n = [hexDigitU (n / 16), hexDigitU (n % 16)] := by
  obtain ⟨k, rfl⟩ : ∃ k, n = k + 1 := ⟨n - 1, by omega⟩
  unfold toHexUpper toHexUpperAux
  rw [if_neg (by omega)]
  have hdiv : (k + 1) / 16 < 16 := by omega
  unfold toHexUpperAux
  rw [if_pos hdiv]
  rfl

theorem toHexUpper_length_lt256 {n : Nat} (h : n < 256) :
    (toHexUpper n).length = if n < 16 then 1 else 2 := by
  by_cases h16 : n < 16
  · rw [if_pos h16, toHexUpper_eq_one h16]
    rfl
  · rw [if_neg h16, toHexUpper_eq_two (by omega) h]
    rfl

theorem pad2Hex_length_lt256 {n : Nat} (h : n < 256) : (pad2Hex n).length = 2 := by
  unfold pad2Hex
  rw [List.length_append, List.length_replicate, toHexUpper_length_lt256 h]
  by_cases h16 : n < 16 <;> simp [h16]

theorem hexFoldr_subset (l : List Nat) :
    ∀ ch ∈ l.foldr (fun b acc => hexDigitL (b / 16) :: hexDigitL (b % 16) :: acc) [],
      ch ∈ hexLowerTable := by
  induction l with
  | nil => simp
  | cons b bs ih =>
    intro ch hch
    simp only [List.foldr_cons, List.mem_cons] at hch
    rcases hch with rfl | rfl | hm
    · exact hexDigitL_mem _
    · exact hexDigitL_mem _
    · exact ih ch hm

theorem sha256hexdigest_subset (msg : List Nat) :
    ∀ ch ∈ sha256hexdigest msg, ch ∈ hexLowerTable :=
  hexFoldr_subset _

theorem toUpper_hex_mem : ∀ ch ∈ hexLowerTable, Char.toUpper ch ∈ hexUpperTable := by
  decide

theorem create_user_hash_subset (u : PyStr) :
    ∀ ch ∈ create_user_hash u, ch ∈ hexUpperTable := by
  intro ch hch
  unfold create_user_hash pyUpper at hch
  rcases List.mem_map.mp hch with ⟨c0, hc0, rfl⟩
  exact toUpper_hex_mem c0 (sha256hexdigest_subset _ c0 (List.mem_of_mem_take hc0))

theorem rbLoop_fst_lt (n k : Nat) (hn : 0 < n) :
    ∀ (fuel : Nat) (g : MTState), (rbLoop n k fuel g).1 < n := by
  intro fuel
  induction fuel with
  | zero =>
    intro g
    exact Nat.mod_lt _ hn
  | succ f ih =>
    intro g
    show (if (getrandbits k g).1 < n then ((getrandbits k g).1, (getrandbits k g).2)
          else rbLoop n k f (getrandbits k g).2).1 < n
    by_cases h : (getrandbits k g).1 < n
    · rw [if_pos h]
      exact h
    · rw [if_neg h]
      exact ih _

theorem randbelow_fst_lt {n : Nat} (hn : 0 < n) (g : MTState) : (randbelow n g).1 < n :=
  rbLoop_fst_lt n _ hn 64 g

theorem pyChoice_mem (seq : PyStr) (g : MTState) (h : 0 < seq.length) :
    (pyChoice seq g).1 ∈ seq := by
  unfold pyChoice
  exact getD_mem_of_lt (randbelow_fst_lt h g)

theorem patternGo_fst_subset :
    ∀ (k i : Nat) (g : MTState) (acc : PyStr),
      ∀ ch ∈ (patternGo i k g acc).1, ch ∈ patternChars ∨ ch ∈ SPECIAL_CHARS ∨ ch ∈ acc := by
  intro k
  induction k with
  | zero =>
    intro i g acc ch hch
    right; right
    simpa [patternGo] using hch
  | succ kk ih =>
    intro i g acc ch hch
    have hch' : ch ∈ (patternGo (i + 1) kk
        ((if i % 4 = 3 then pyChoice SPECIAL_CHARS g else pyChoice patternChars g)).2
        (((if i % 4 = 3 then pyChoice SPECIAL_CHARS g else pyChoice patternChars g)).1 :: acc)).1 := hch
    rcases ih _ _ _ _ hch' with h1 | h2 | h3
    · exact Or.inl h1
    · exact Or.inr (Or.inl h2)
    · rcases List.mem_cons.mp h3 with rfl | hm
      · by_cases hi : i % 4 = 3
        · rw [if_pos hi]
          exact Or.inr (Or.inl (pyChoice_mem _ _ (by decide)))
        · rw [if_neg hi]
          exact Or.inl (pyChoice_mem _ _ (by decide))
      · exact Or.inr (Or.inr hm)

theorem generate_unique_pattern_subset (seed : PyStr) (g : MTState) :
    ∀ ch ∈ (generate_unique_pattern seed g).1, ch ∈ patternChars ∨ ch ∈ SPECIAL_CHARS := by
  intro ch hch
  rcases patternGo_fst_subset 12 0 (seedState seed) [] ch hch with h | h | h
  · exact Or.inl h
  · exact Or.inr h
  · simp at h

theorem genrand_mti_pos (g : MTState) : 1 ≤ (genrand_uint32 g).2.mti := by
  show 1 ≤ (if g.mti ≥ 624 then (twist g.mt, 0) else (g.mt, g.mti)).2 + 1
  omega

theorem getrandbits_mti_pos (k : Nat) (g : MTState) : 1 ≤ (getrandbits k g).2.mti :=
  genrand_mti_pos g

theorem rbLoop_mti_pos (n k : Nat) : ∀ (fuel : Nat) (g : MTState), 1 ≤ (rbLoop n k fuel g).2.mti := by
  intro fuel
  induction fuel with
  | zero =>
    intro g
    exact getrandbits_mti_pos k g
  | succ f ih =>
    intro g
    show 1 ≤ (if (getrandbits k g).1 < n then ((getrandbits k g).1, (getrandbits k g).2)
          else rbLoop n k f (getrandbits k g).2).2.mti
    by_cases h : (getrandbits k g).1 < n
    · rw [if_pos h]
      exact getrandbits_mti_pos k g
    · rw [if_neg h]
      exact ih _

theorem pyChoice_mti_pos (seq : PyStr) (g : MTState) : 1 ≤ (pyChoice seq g).2.mti :=
  rbLoop_mti_pos _ _ 64 g

theorem patternGo_mti_pos :
    ∀ (k i : Nat) (g : MTState) (acc : PyStr), 1 ≤ k → 1 ≤ (patternGo i k g acc).2.mti := by
  intro k
  induction k with
  | zero => intro i g acc h; omega
  | succ kk ih =>
    intro i g acc _
    show 1 ≤ (patternGo (i + 1) kk
        ((if i % 4 = 3 then pyChoice SPECIAL_CHARS g else pyChoice patternChars g)).2
        (((if i % 4 = 3 then pyChoice SPECIAL_CHARS g else pyChoice patternChars g)).1 :: acc)).2.mti
    cases kk with
    | zero =>
      show 1 ≤ ((if i % 4 = 3 then pyChoice SPECIAL_CHARS g else pyChoice patternChars g)).2.mti
      by_cases hi : i % 4 = 3
      · rw [if_pos hi]
        exact pyChoice_mti_pos _ _
      · rw [if_neg hi]
        exact pyChoice_mti_pos _ _
    | succ kkk =>
      exact ih _ _ _ (by omega)

theorem generate_unique_pattern_mti_pos (seed : PyStr) (g : MTState) :
    1 ≤ (generate_unique_pattern seed g).2.mti :=
  patternGo_mti_pos 12 0 (seedState seed) [] (by omega)

theorem findTier_mem {l : List (PyStr × Tier)} {key n : PyStr} {t : Tier}
    (h : findTier l key = some (n, t)) : (n, t) ∈ l := by
  induction l with
  | nil => simp [findTier] at h
  | cons p rest ih =>
    obtain ⟨pn, pt⟩ := p
    unfold findTier at h
    by_cases hc : pt.pfx.isPrefixOf key ∧ pt.separator ∈ key
    · rw [if_pos hc] at h
      simp only [Option.some.injEq, Prod.mk.injEq] at h
      obtain ⟨rfl, rfl⟩ := h
      exact List.mem_cons_self _ _
    · rw [if_neg hc] at h
      exact List.mem_cons_of_mem _ (ih h)

theorem lookupTier_inv {k n : PyStr} {t : Tier} (h : lookupTier k = some (n, t)) :
    n = k ∧ (n, t) ∈ USER_TIERS := by
  have hm := List.mem_of_find?_eq_some h
  have hp := List.find?_some h
  simp only [decide_eq_true_eq] at hp
  exact ⟨hp, hm⟩

/-- The four concrete tiers, as an elimination form for
`(n, t) ∈ USER_TIERS`. -/
theorem tier_cases {n : PyStr} {t : Tier} (h : (n, t) ∈ USER_TIERS) :
    (n = ("ARCHIVIST").data ∧ t = ⟨1, ("Archivist").data, '-', ("ARK").data⟩) ∨
    (n = ("ORCHESTRATOR").data ∧ t = ⟨2, ("Orchestrator").data, ':', ("ORC").data⟩) ∨
    (n = ("GODFATHER").data ∧ t = ⟨3, ("Godfather").data, '∞', ("GOD").data⟩) ∨
    (n = ("ENTITY").data ∧ t = ⟨4, ("Entity").data, '⟡', ("NXS").data⟩) := by
  simpa [USER_TIERS, Prod.ext_iff] using h

/-- Closed form of a successful `generate_membership_key` call. -/
theorem generate_membership_key_eq (uid tname : PyStr) (d : PyDateTime)
    (attrs : List (PyStr × PyStr)) (g : MTState) (name : PyStr) (tier : Tier)
    (hl : lookupTier (pyUpper tname) = some (name, tier)) :
    generate_membership_key uid tname d attrs g =
      (.ok (format_key
          (tier.pfx ++ (create_user_hash uid).take 3)
          (encode_tier tier.id :: (generate_unique_pattern (uid ++ d.tsRepr) g).1.take 4)
          (encode_timestamp d)
          (((generate_unique_pattern (uid ++ d.tsRepr) g).1.drop 4).take 4)
          (generate_personal_element attrs uid)
          (calculate_checksum
            ((tier.pfx ++ (create_user_hash uid).take 3) ++
             (encode_tier tier.id :: (generate_unique_pattern (uid ++ d.tsRepr) g).1.take 4) ++
             encode_timestamp d ++
             (((generate_unique_pattern (uid ++ d.tsRepr) g).1.drop 4).take 4) ++
             generate_personal_element attrs uid))
          tier),
       (generate_unique_pattern (uid ++ d.tsRepr) g).2) := by
  unfold generate_membership_key
  rw [hl]

/-- Behaviour of `validate_membership_key` once a tier has matched and
the key splits into exactly five segments. -/
theorem validate_eq_of_split5 (key name : PyStr) (tier : Tier) (a b c dp cs : PyStr)
    (hf : findTier USER_TIERS key = some (name, tier))
    (hs : splitOnChar tier.separator key = [a, b, c, dp, cs]) :
    validate_membership_key key = validateCore name tier a b c dp cs := by
  unfold validate_membership_key
  simp only [hf, hs]
  have h5 : ¬ (([a, b, c, dp, cs] : List PyStr).length ≠ 5) := by simp
  rw [if_neg h5]
  rfl

/-- Behaviour of `validate_membership_key` when the split does not have
exactly five segments. -/
theorem validate_eq_of_not5 (key name : PyStr) (tier : Tier)
    (hf : findTier USER_TIERS key = some (name, tier))
    (hn : (splitOnChar tier.separator key).length ≠ 5) :
    validate_membership_key key = .ok (.invalid (("Invalid key structure").data)) := by
  unfold validate_membership_key
  simp only [hf]
  exact if_pos hn

/-- The reconstructed string inside `validateCore` is exactly the
concatenation of the four data segments: re-splitting segment
D+Personal at its end changes nothing. -/
theorem reconstructed_eq (a b c dp : PyStr) :
    a ++ b ++ c ++ dp.take (dp.length - 2) ++ dp.drop (dp.length - 2) = a ++ b ++ c ++ dp := by
  rw [List.append_assoc (a ++ b ++ c) (dp.take (dp.length - 2)) (dp.drop (dp.length - 2)),
    List.take_append_drop]

theorem validateCore_invalid_checksum (name : PyStr) (tier : Tier) (a b c dp cs : PyStr)
    (hcs : cs ≠ calculate_checksum (a ++ b ++ c ++ dp)) :
    validateCore name tier a b c dp cs = .ok (.invalid (("Invalid checksum").data)) := by
  simp only [validateCore, reconstructed_eq]
  exact if_pos hcs

theorem validateCore_indexError (name : PyStr) (tier : Tier) (a c dp cs : PyStr)
    (hcs : cs = calculate_checksum (a ++ [] ++ c ++ dp)) :
    validateCore name tier a [] c dp cs = .error .indexError := by
  simp only [validateCore, reconstructed_eq]
  exact if_neg (fun h => h hcs)

theorem validateCore_valueError (name : PyStr) (tier : Tier) (a c dp cs : PyStr)
    (b0 : Char) (brest : PyStr)
    (hcs : cs = calculate_checksum (a ++ (b0 :: brest) ++ c ++ dp))
    (hidx : listIndex ascii_uppercase b0 = none) :
    validateCore name tier a (b0 :: brest) c dp cs = .error .valueError := by
  simp only [validateCore, reconstructed_eq, hidx]
  rw [if_neg (fun h => h hcs)]

theorem validateCore_mismatch (name : PyStr) (tier : Tier) (a c dp cs : PyStr)
    (b0 : Char) (brest : PyStr) (idx : Nat)
    (hcs : cs = calculate_checksum (a ++ (b0 :: brest) ++ c ++ dp))
    (hidx : listIndex ascii_uppercase b0 = some idx)
    (hid : idx + 1 ≠ tier.id) :
    validateCore name tier a (b0 :: brest) c dp cs =
      .ok (.invalid (("Tier identifier mismatch").data)) := by
  simp only [validateCore, reconstructed_eq, hidx]
  rw [if_neg (fun h => h hcs), if_pos hid]

theorem validateCore_success (name : PyStr) (tier : Tier) (a c dp cs : PyStr)
    (b0 : Char) (brest : PyStr) (idx : Nat)
    (hcs : cs = calculate_checksum (a ++ (b0 :: brest) ++ c ++ dp))
    (hidx : listIndex ascii_uppercase b0 = some idx)
    (hid : idx + 1 = tier.id) :
    validateCore name tier a (b0 :: brest) c dp cs =
      .ok (.valid (("user_").data ++ a.drop 3) name tier.id
        (parseRegistrationDate c) (dp.drop (dp.length - 2))) := by
  simp only [validateCore, reconstructed_eq, hidx]
  rw [if_neg (fun h => h hcs), if_neg (fun h => h hid)]

/-- Separator facts for each tier: the separator glyph never occurs in a
tier prefix, in uppercase-hex output, or in the uppercase alphabet. -/
theorem tier_separator_facts {n : PyStr} {t : Tier} (h : (n, t) ∈ USER_TIERS) :
    t.separator ∉ t.pfx ∧ t.separator ∉ hexUpperTable ∧ t.separator ∉ ascii_uppercase := by
  rcases tier_cases h with ⟨rfl, rfl⟩ | ⟨rfl, rfl⟩ | ⟨rfl, rfl⟩ | ⟨rfl, rfl⟩ <;>
    exact ⟨by decide, by decide, by decide⟩

/-- The tier-identifier character of each tier decodes back to the
tier's id via `string.ascii_uppercase.index`. -/
theorem encode_tier_facts {n : PyStr} {t : Tier} (h : (n, t) ∈ USER_TIERS) :
    listIndex ascii_uppercase (encode_tier t.id) = some (t.id - 1) ∧
      (t.id - 1) + 1 = t.id ∧ encode_tier t.id ∈ ascii_uppercase := by
  rcases tier_cases h with ⟨rfl, rfl⟩ | ⟨rfl, rfl⟩ | ⟨rfl, rfl⟩ | ⟨rfl, rfl⟩ <;>
    exact ⟨by decide, by decide, by decide⟩

/-- On a string that starts with a tier's own prefix and separator, the
scanning loop of `validate_membership_key` finds exactly that tier (the
four prefixes are pairwise non-overlapping). -/
theorem findTier_generated {name : PyStr} {tier : Tier} (h : (name, tier) ∈ USER_TIERS)
    (h3 rest : PyStr) :
    findTier USER_TIERS ((tier.pfx ++ h3) ++ tier.separator :: rest) = some (name, tier) := by
  rcases tier_cases h with ⟨rfl, rfl⟩ | ⟨rfl, rfl⟩ | ⟨rfl, rfl⟩ | ⟨rfl, rfl⟩
  · simp only [USER_TIERS, findTier]
    rw [if_pos ⟨by simp [List.isPrefixOf], by simp [List.mem_append, List.mem_cons]⟩]
  · simp only [USER_TIERS, findTier]
    rw [if_neg (fun hc => by simpa [List.isPrefixOf] using hc.1),
      if_pos ⟨by simp [List.isPrefixOf], by simp [List.mem_append, List.mem_cons]⟩]
  · simp only [USER_TIERS, findTier]
    rw [if_neg (fun hc => by simpa [List.isPrefixOf] using hc.1),
      if_neg (fun hc => by simpa [List.isPrefixOf] using hc.1),
      if_pos ⟨by simp [List.isPrefixOf], by simp [List.mem_append, List.mem_cons]⟩]
  · simp only [USER_TIERS, findTier]
    rw [if_neg (fun hc => by simpa [List.isPrefixOf] using hc.1),
      if_neg (fun hc => by simpa [List.isPrefixOf] using hc.1),
      if_neg (fun hc => by simpa [List.isPrefixOf] using hc.1),
      if_pos ⟨by simp [List.isPrefixOf], by simp [List.mem_append, List.mem_cons]⟩]

/-- Claim C1, amended.  For a resolvable tier name, whenever neither the
12-character unique pattern nor the personal element happens to contain
the tier's separator glyph (`SPECIAL_CHARS` contains `'-'` and `':'`, so
this can fail — see the counterexample), the generated key splits into
exactly 5 segments on the tier separator and validates as valid with the
upper-cased tier name and the tier's rank. -/
theorem c1_round_trip_amended (uid tname : PyStr) (d : PyDateTime)
    (attrs : List (PyStr × PyStr)) (g : MTState) (name : PyStr) (tier : Tier)
    (hl : lookupTier (pyUpper tname) = some (name, tier))
    (hpat : tier.separator ∉ (generate_unique_pattern (uid ++ d.tsRepr) g).1)
    (hper : tier.separator ∉ generate_personal_element attrs uid) :
    ∃ key, (generate_membership_key uid tname d attrs g).1 = .ok key ∧
      (splitOnChar tier.separator key).length = 5 ∧
      ∃ ruid rdate rpe, validate_membership_key key =
        .ok (.valid ruid (pyUpper tname) tier.id rdate rpe) := by
  obtain ⟨hname, hmem⟩ := lookupTier_inv hl
  obtain ⟨hsp, hshex, hsupper⟩ := tier_separator_facts hmem
  obtain ⟨hli, hli2, henc⟩ := encode_tier_facts hmem
  have hkey := generate_membership_key_eq uid tname d attrs g name tier hl
  set p := (generate_unique_pattern (uid ++ d.tsRepr) g).1 with hp
  set A := tier.pfx ++ (create_user_hash uid).take 3 with hA
  set B := encode_tier tier.id :: p.take 4 with hB
  set C := encode_timestamp d with hC
  set D := (p.drop 4).take 4 with hD
  set P := generate_personal_element attrs uid with hP
  set CS := calculate_checksum (A ++ B ++ C ++ D ++ P) with hCS
  have hnA : tier.separator ∉ A := by
    rw [hA]
    intro hc
    rcases List.mem_append.mp hc with h1 | h2
    · exact hsp h1
    · exact hshex (create_user_hash_subset uid _ (List.mem_of_mem_take h2))
  have hnB : tier.separator ∉ B := by
    rw [hB]
    intro hc
    rcases List.mem_cons.mp hc with h1 | h2
    · exact hsupper (by rw [h1]; exact henc)
    · exact hpat (List.mem_of_mem_take h2)
  have hnC : tier.separator ∉ C := by
    rw [hC]
    intro hc
    exact hshex (encode_timestamp_subset d _ hc)
  have hnDP : tier.separator ∉ D ++ P := by
    intro hc
    rcases List.mem_append.mp hc with h1 | h2
    · rw [hD] at h1
      exact hpat (List.mem_of_mem_drop (List.mem_of_mem_take h1))
    · rw [hP] at h2
      exact hper h2
  have hnCS : tier.separator ∉ CS := by
    rw [hCS]
    intro hc
    exact hshex (calculate_checksum_subset _ _ hc)
  have hsplit : splitOnChar tier.separator (format_key A B C D P CS tier)
      = [A, B, C, D ++ P, CS] := by
    show splitOnChar tier.separator
        (A ++ tier.separator :: (B ++ tier.separator ::
          (C ++ tier.separator :: (D ++ P ++ tier.separator :: CS)))) = _
    rw [splitOnChar_sep _ _ _ hnA, splitOnChar_sep _ _ _ hnB, splitOnChar_sep _ _ _ hnC,
      splitOnChar_sep _ _ _ hnDP, splitOnChar_no_sep _ _ hnCS]
  have hft : findTier USER_TIERS (format_key A B C D P CS tier) = some (name, tier) := by
    show findTier USER_TIERS
        ((tier.pfx ++ (create_user_hash uid).take 3) ++ tier.separator :: _) = _
    exact findTier_generated hmem _ _
  have hval := validate_eq_of_split5 (format_key A B C D P CS tier) name tier
      A B C (D ++ P) CS hft hsplit
  have hcs' : CS = calculate_checksum (A ++ B ++ C ++ (D ++ P)) := by
    rw [hCS, List.append_assoc (A ++ B ++ C) D P]
  rw [hB] at hcs' hval
  have hcore := validateCore_success name tier A C (D ++ P) CS
      (encode_tier tier.id) (p.take 4) (tier.id - 1) hcs' hli hli2
  rw [hcore] at hval
  exact ⟨format_key A B C D P CS tier, by rw [hkey],
    by rw [hsplit]; rfl, _, _, _, by rw [← hname]; exact hval⟩

/-- If the personal element itself contains the tier separator, the
formatted key has more than four separator occurrences, so decoding
rejects it with "Invalid key structure". -/
theorem validate_format_key_extra_sep (name : PyStr) (tier : Tier)
    (hmem : (name, tier) ∈ USER_TIERS) (h3 B C D P CS : PyStr)
    (hsep : tier.separator ∈ P) :
    validate_membership_key (format_key (tier.pfx ++ h3) B C D P CS tier)
      = .ok (.invalid (("Invalid key structure").data)) := by
  have hft : findTier USER_TIERS (format_key (tier.pfx ++ h3) B C D P CS tier)
      = some (name, tier) := findTier_generated hmem h3 _
  apply validate_eq_of_not5 _ _ _ hft
  rw [splitOnChar_length]
  have hP1 : 0 < List.count tier.separator P := List.count_pos_iff.mpr hsep
  have h5 : 5 ≤ List.count tier.separator (format_key (tier.pfx ++ h3) B C D P CS tier) := by
    show 5 ≤ List.count tier.separator
        ((tier.pfx ++ h3) ++ tier.separator :: (B ++ tier.separator ::
          (C ++ tier.separator :: (D ++ P ++ tier.separator :: CS))))
    simp only [List.count_append, List.count_cons, beq_self_eq_true, if_true]
    omega
  omega

/-- Claim C1 as stated is refuted at a concrete input: with display name
`"-A"` the personal element is `"-"`, which is the Archivist separator,
so the generated key splits into more than 5 parts and decoding reports
"Invalid key structure" instead of a valid result. -/
theorem ok_fst_bind {α β γ : Type} (k : α) (st : γ) (f : α → Except PyExc β) :
    ((Except.ok k, st) : Except PyExc α × γ).1.bind f = f k := rfl

theorem c1_round_trip_cex :
    ((generate_membership_key (("alice123").data) (("Archivist").data)
        ⟨2024, 3, 15, ("1710460800.0").data⟩
        [((("name").data), ("-A").data)] mtZero).1).bind validate_membership_key
      = .ok (.invalid (("Invalid key structure").data)) := by
  have hl : lookupTier (pyUpper (("Archivist").data))
      = some ((("ARCHIVIST").data), ⟨1, ("Archivist").data, '-', ("ARK").data⟩) := by decide
  have hkey := generate_membership_key_eq (("alice123").data) (("Archivist").data)
      ⟨2024, 3, 15, ("1710460800.0").data⟩ [((("name").data), ("-A").data)] mtZero
      (("ARCHIVIST").data) ⟨1, ("Archivist").data, '-', ("ARK").data⟩ hl
  rw [hkey, ok_fst_bind]
  have hsep : ('-' : Char) ∈ generate_personal_element
      [((("name").data), ("-A").data)] (("alice123").data) := by decide
  exact validate_format_key_extra_sep (("ARCHIVIST").data)
      ⟨1, ("Archivist").data, '-', ("ARK").data⟩ (by decide) _ _ _ _ _ _ hsep

/-- Witness for the amended claim C1 at a concrete input: a Godfather
key round-trips because the separator `'∞'` can occur neither in the
pattern alphabet nor in a hash-derived personal element. -/
theorem c1_round_trip_amended_witness :
    ∃ key, (generate_membership_key (("alice123").data) (("Godfather").data)
        ⟨2024, 3, 15, ("1710460800.0").data⟩ [] mtZero).1 = .ok key ∧
      (splitOnChar '∞' key).length = 5 ∧
      ∃ ruid rdate rpe, validate_membership_key key =
        .ok (.valid ruid (pyUpper (("Godfather").data)) 3 rdate rpe) := by
  have h := c1_round_trip_amended (("alice123").data) (("Godfather").data)
      ⟨2024, 3, 15, ("1710460800.0").data⟩ [] mtZero (("GODFATHER").data)
      ⟨3, ("Godfather").data, '∞', ("GOD").data⟩ (by decide)
      (fun hc => by
        rcases generate_unique_pattern_subset _ _ _ hc with h1 | h2
        · exact absurd h1 (by decide)
        · exact absurd h2 (by decide))
      (fun hc => by
        have hc' : '∞' ∈ (create_user_hash (("alice123").data)).take 2 := hc
        exact absurd (create_user_hash_subset _ _ (List.mem_of_mem_take hc')) (by decide))
  exact h

/-- Claim C2, amended: the checksum is the concatenation of the
unpadded uppercase-hex renderings of `(sum mod 36)` and
`((sum * 13) mod 36)`.  Because those values range up to 35, each part
is one hex character only when its value is below 16 (so the whole
checksum has 2 characters exactly in that case, and up to 4 in
general), and every character is a hex digit 0-9/A-F, not a general
base-36 digit. -/
theorem c2_checksum_hex_shape (s : PyStr) :
    2 ≤ (calculate_checksum s).length ∧ (calculate_checksum s).length ≤ 4 ∧
    ((calculate_checksum s).length = 2 ↔
      (weightedSum s % 36 < 16 ∧ (weightedSum s * 13) % 36 < 16)) ∧
    ∀ ch ∈ calculate_checksum s, ch ∈ hexUpperTable := by
  have hm1 : weightedSum s % 36 < 36 := Nat.mod_lt _ (by omega)
  have hm2 : (weightedSum s * 13) % 36 < 36 := Nat.mod_lt _ (by omega)
  have hcs : calculate_checksum s =
      toHexUpper (weightedSum s % 36) ++ toHexUpper ((weightedSum s * 13) % 36) := rfl
  have l1 := toHexUpper_length_lt256 (n := weightedSum s % 36) (by omega)
  have l2 := toHexUpper_length_lt256 (n := (weightedSum s * 13) % 36) (by omega)
  refine ⟨?_, ?_, ?_, calculate_checksum_subset s⟩
  · rw [hcs, List.length_append, l1, l2]
    split_ifs <;> omega
  · rw [hcs, List.length_append, l1, l2]
    split_ifs <;> omega
  · rw [hcs, List.length_append, l1, l2]
    split_ifs <;> omega

/-- Claim C2 as stated is refuted at a concrete input: the checksum of
`"Z"` is `"1212"` (both weighted-sum residues are 18, rendered as the
two-character hex string `"12"`), four characters instead of the
claimed two. -/
theorem c2_checksum_two_char_cex :
    (calculate_checksum (("Z").data)).length = 4 := by decide

/-- Claim C3 as stated is internally inconsistent with the code: the
time signature is 2 + 1 + 2 = 5 characters, not 4.  Concretely, for
2024-03-15 the signature is `"1830F"`, of length 5. -/
theorem c3_time_signature_four_cex :
    (encode_timestamp ⟨2024, 3, 15, ("1710460800.0").data⟩).length = 5 := by decide

/-- Claim C3, amended: for every calendar date (month at most 12, day
at most 31) the time signature has exactly 5 characters — 2 for the
year mod 100, 1 for the month, 2 for the day — all uppercase-hex. -/
theorem c3_time_signature_shape (d : PyDateTime) (hm : d.month ≤ 12) (hd : d.day ≤ 31) :
    (encode_timestamp d).length = 5 ∧
    (pad2Hex (d.year % 100)).length = 2 ∧ (toHexUpper d.month).length = 1 ∧
    (pad2Hex d.day).length = 2 ∧
    ∀ ch ∈ encode_timestamp d, ch ∈ hexUpperTable := by
  have hy : d.year % 100 < 256 := by
    have := Nat.mod_lt d.year (show 0 < 100 by omega)
    omega
  have h1 := pad2Hex_length_lt256 hy
  have h2 := toHexUpper_length_lt256 (show d.month < 256 by omega)
  rw [if_pos (show d.month < 16 by omega)] at h2
  have h3 := pad2Hex_length_lt256 (show d.day < 256 by omega)
  refine ⟨?_, h1, h2, h3, encode_timestamp_subset d⟩
  show (pad2Hex (d.year % 100) ++ toHexUpper d.month ++ pad2Hex d.day).length = 5
  rw [List.length_append, List.length_append, h1, h2, h3]

/-- Witness for the amended claim C3 at the concrete date 2024-03-15. -/
theorem c3_time_signature_shape_witness :
    (encode_timestamp ⟨2024, 3, 15, ("1710460800.0").data⟩).length = 5 :=
  (c3_time_signature_shape ⟨2024, 3, 15, ("1710460800.0").data⟩ (by decide) (by decide)).1

/-- Claim C4 is refuted by the code (the claim matches the documented
error-handling design, so this is a code bug): `validate_membership_key`
is not exception-free.  On `"ARK--A-BC-66"` (empty segment B, checksum
valid) `segmentB[0]` raises `IndexError`; on `"ARKAB-1A-CD-EF-99"`
(segment B starts with `'1'`) `ascii_uppercase.index` raises
`ValueError`. -/
theorem c4_validate_uncaught_exceptions :
    validate_membership_key (("ARK--A-BC-66").data) = .error .indexError ∧
    validate_membership_key (("ARKAB-1A-CD-EF-99").data) = .error .valueError :=
  ⟨by decide, by decide⟩

/-- A valid decode result always carries the id of the tier matched by
the scanning loop. -/
theorem validate_valid_inv {key uid nm : PyStr} {lvl : Nat}
    {rd : Option (Nat × Nat × Nat)} {pe : PyStr}
    (h : validate_membership_key key = .ok (.valid uid nm lvl rd pe)) :
    ∃ tier, findTier USER_TIERS key = some (nm, tier) ∧ lvl = tier.id := by
  unfold validate_membership_key at h
  cases hf : findTier USER_TIERS key with
  | none =>
    rw [hf] at h
    simp at h
  | some nt =>
    obtain ⟨n, t⟩ := nt
    rw [hf] at h
    simp only [] at h
    by_cases h5 : (splitOnChar t.separator key).length ≠ 5
    · rw [if_pos h5] at h
      simp at h
    · rw [if_neg h5] at h
      simp only [validateCore] at h
      split at h
      · simp at h
      · split at h
        · simp at h
        · split at h
          · simp at h
          · split at h
            · simp at h
            · simp only [Except.ok.injEq, ValidationResult.valid.injEq] at h
              obtain ⟨_, hn, hl, _, _⟩ := h
              exact ⟨t, by rw [hn], hl.symm⟩


/-- Claim C5: the presentation adapter passes through validation: on an
invalid key it returns a failure record whose detail equals the decode
error, and on a valid Godfather-tier key it returns success with
mainColor `#FF006E` and patternComplexity `min(3 * 2, 10) = 6`. -/
theorem c5_qr_passthrough (key : PyStr) :
    (∀ err, validate_membership_key key = .ok (.invalid err) →
       generate_premium_qr_code key =
         .ok (.failure (("Invalid membership key").data) (some err))) ∧
    (∀ uid lvl rdate pe,
       validate_membership_key key = .ok (.valid uid (("GODFATHER").data) lvl rdate pe) →
       lvl = 3 ∧
       generate_premium_qr_code key =
         .ok (.success
           ⟨key, ("https://nexus.io/validate/").data ++ key, ("GODFATHER").data⟩
           ⟨("godfather").data, ("#FF006E").data, 6, 3⟩
           (("GODFATHER").data) 3)) := by
  constructor
  · intro err h
    unfold generate_premium_qr_code
    simp only [h]
  · intro uid lvl rdate pe h
    obtain ⟨tier, hft, hlvl⟩ := validate_valid_inv h
    have hmem := findTier_mem hft
    have h3 : tier.id = 3 := by
      rcases tier_cases hmem with ⟨hn, rfl⟩ | ⟨hn, rfl⟩ | ⟨hn, rfl⟩ | ⟨hn, rfl⟩
      · exact absurd hn (by decide)
      · exact absurd hn (by decide)
      · rfl
      · exact absurd hn (by decide)
    have hlvl3 : lvl = 3 := hlvl.trans h3
    subst hlvl3
    refine ⟨rfl, ?_⟩
    unfold generate_premium_qr_code
    simp only [h]
    rfl

/-- Claim C6: resolving the tier name is a case-insensitive lookup in
the fixed 4-entry table: any name whose upper-casing is not a table key
makes encoding raise `KeyError`, and any casing of a table key succeeds. -/
theorem c6_unknown_tier (uid s : PyStr) (d : PyDateTime)
    (attrs : List (PyStr × PyStr)) (g : MTState) :
    (pyUpper s ∉ USER_TIERS.map Prod.fst →
       (generate_membership_key uid s d attrs g).1 = .error .keyError) ∧
    (pyUpper s ∈ USER_TIERS.map Prod.fst →
       ∃ key, (generate_membership_key uid s d attrs g).1 = .ok key) := by
  constructor
  · intro hnot
    have hl : lookupTier (pyUpper s) = none := by
      unfold lookupTier
      rw [List.find?_eq_none]
      intro p hp
      simp only [decide_eq_true_eq]
      exact fun he => hnot (he ▸ List.mem_map_of_mem Prod.fst hp)
    unfold generate_membership_key
    simp only [hl]
  · intro hin
    rcases List.mem_map.mp hin with ⟨p, hp, hfst⟩
    have hex : ∃ q ∈ USER_TIERS, (fun q => decide (q.1 = pyUpper s)) q = true :=
      ⟨p, hp, by simp [hfst]⟩
    have hsome : (lookupTier (pyUpper s)).isSome := by
      unfold lookupTier
      exact List.find?_isSome.mpr hex
    obtain ⟨⟨n, t⟩, hl⟩ := Option.isSome_iff_exists.mp hsome
    exact ⟨_, by rw [generate_membership_key_eq uid s d attrs g n t hl]⟩

/-- Witness for claim C6: `"ROOKIE"` raises `KeyError`; the casing
`"gODfAtHeR"` succeeds. -/
theorem c6_unknown_tier_witness :
    (generate_membership_key (("u1").data) (("ROOKIE").data)
        ⟨2024, 3, 15, ("1710460800.0").data⟩ [] mtZero).1 = .error .keyError ∧
    ∃ key, (generate_membership_key (("u1").data) (("gODfAtHeR").data)
        ⟨2024, 3, 15, ("1710460800.0").data⟩ [] mtZero).1 = .ok key :=
  ⟨(c6_unknown_tier (("u1").data) (("ROOKIE").data)
      ⟨2024, 3, 15, ("1710460800.0").data⟩ [] mtZero).1 (by decide),
   (c6_unknown_tier (("u1").data) (("gODfAtHeR").data)
      ⟨2024, 3, 15, ("1710460800.0").data⟩ [] mtZero).2 (by decide)⟩

/-- Claim C7: encoding is deterministic in its arguments: the produced
key string does not depend on the incoming global PRNG state (the
pattern step reseeds the generator), so two calls with identical
arguments yield identical keys regardless of interleaved draws. -/
theorem c7_encode_deterministic (uid tname : PyStr) (d : PyDateTime)
    (attrs : List (PyStr × PyStr)) (g1 g2 : MTState) :
    (generate_membership_key uid tname d attrs g1).1
      = (generate_membership_key uid tname d attrs g2).1 := by
  cases hl : lookupTier (pyUpper tname) with
  | none =>
    unfold generate_membership_key
    simp only [hl]
  | some nt =>
    obtain ⟨n, t⟩ := nt
    rw [generate_membership_key_eq uid tname d attrs g1 n t hl,
      generate_membership_key_eq uid tname d attrs g2 n t hl]
    rfl

/-- Witness for claim C5: a garbage key fails through with the decode
error, and a concrete valid Godfather key gets the Godfather styling. -/
theorem c5_qr_passthrough_witness :
    generate_premium_qr_code (("XYZ").data) =
      .ok (.failure (("Invalid membership key").data)
        (some (("Unknown key format").data))) ∧
    generate_premium_qr_code (("GODAAA∞CAAAA∞1834∞QRST∞D19").data) =
      .ok (.success
        ⟨("GODAAA∞CAAAA∞1834∞QRST∞D19").data,
         ("https://nexus.io/validate/").data ++ ("GODAAA∞CAAAA∞1834∞QRST∞D19").data,
         ("GODFATHER").data⟩
        ⟨("godfather").data, ("#FF006E").data, 6, 3⟩
        (("GODFATHER").data) 3) :=
  ⟨(c5_qr_passthrough (("XYZ").data)).1 (("Unknown key format").data) (by decide),
   ((c5_qr_passthrough (("GODAAA∞CAAAA∞1834∞QRST∞D19").data)).2
     (("user_AAA").data) 3 (some (2024, 3, 4)) (("ST").data) (by decide)).2⟩

/-- Claim C8 as stated is refuted: encoding does mutate the global PRNG
state.  Starting from a generator state with index 0, one encode call
leaves the global state with a strictly positive index (the pattern
step reseeds and then consumes draws), observable by any later caller
of the `random` module. -/
theorem pair_snd {α γ : Type} (k : α) (st : γ) : ((k, st) : α × γ).2 = st := rfl

theorem c8_prng_state_mutation_cex :
    (generate_membership_key (("alice123").data) (("Godfather").data)
        ⟨2024, 3, 15, ("1710460800.0").data⟩ [] mtZero).2 ≠ mtZero := by
  have hl : lookupTier (pyUpper (("Godfather").data))
      = some ((("GODFATHER").data), ⟨3, ("Godfather").data, '∞', ("GOD").data⟩) := by decide
  intro hcontra
  rw [generate_membership_key_eq (("alice123").data) (("Godfather").data)
      ⟨2024, 3, 15, ("1710460800.0").data⟩ [] mtZero
      (("GODFATHER").data) ⟨3, ("Godfather").data, '∞', ("GOD").data⟩ hl, pair_snd] at hcontra
  have h1 := generate_unique_pattern_mti_pos
      ((("alice123").data) ++ (PyDateTime.mk 2024 3 15 (("1710460800.0").data)).tsRepr) mtZero
  have h2 := congrArg MTState.mti hcontra
  have h3 : mtZero.mti = 0 := rfl
  omega

/-- Claim C8, amended: the mutation encode performs on the global PRNG
state is a pure overwrite — the post-call state depends only on the
call's arguments, not on the state found before the call (decode and
the presentation adapter touch no state at all, as their types show). -/
theorem c8_prng_overwrite_amended (uid tname : PyStr) (d : PyDateTime)
    (attrs : List (PyStr × PyStr)) (g : MTState) (name : PyStr) (tier : Tier)
    (hl : lookupTier (pyUpper tname) = some (name, tier)) :
    (generate_membership_key uid tname d attrs g).2
      = (generate_membership_key uid tname d attrs mtZero).2 := by
  rw [generate_membership_key_eq uid tname d attrs g name tier hl,
    generate_membership_key_eq uid tname d attrs mtZero name tier hl]
  rfl

/-- Witness for the amended claim C8 at concrete arguments and a
nontrivial incoming state. -/
theorem c8_prng_overwrite_amended_witness :
    (generate_membership_key (("u1").data) (("Entity").data)
        ⟨2024, 1, 2, ("1704153600.0").data⟩ [] (seedState (("x").data))).2
      = (generate_membership_key (("u1").data) (("Entity").data)
        ⟨2024, 1, 2, ("1704153600.0").data⟩ [] mtZero).2 :=
  c8_prng_overwrite_amended (("u1").data) (("Entity").data)
    ⟨2024, 1, 2, ("1704153600.0").data⟩ [] (seedState (("x").data))
    (("ENTITY").data) ⟨4, ("Entity").data, '⟡', ("NXS").data⟩ (by decide)

/-- Claim C9: once a tier has matched and the key splits into exactly
five segments, the checksum gate compares the 5th segment against the
checksum of exactly the concatenation of the first four — re-splitting
the 4th segment into D and Personal never changes the checksum input
(the slicing is total: for a 4th segment of length at most 2, D is
empty and Personal is the whole segment). -/
theorem c9_checksum_over_first_four (key name : PyStr) (tier : Tier) (a b c dp cs : PyStr)
    (hf : findTier USER_TIERS key = some (name, tier))
    (hs : splitOnChar tier.separator key = [a, b, c, dp, cs]) :
    (validate_membership_key key = .ok (.invalid (("Invalid checksum").data)) ↔
      cs ≠ calculate_checksum (a ++ b ++ c ++ dp)) ∧
    dp.take (dp.length - 2) ++ dp.drop (dp.length - 2) = dp := by
  refine ⟨?_, List.take_append_drop _ dp⟩
  rw [validate_eq_of_split5 key name tier a b c dp cs hf hs]
  constructor
  · intro h hcs
    cases b with
    | nil =>
      rw [validateCore_indexError name tier a c dp cs hcs] at h
      exact Except.noConfusion h
    | cons b0 brest =>
      cases hidx : listIndex ascii_uppercase b0 with
      | none =>
        rw [validateCore_valueError name tier a c dp cs b0 brest hcs hidx] at h
        exact Except.noConfusion h
      | some idx =>
        by_cases hid : idx + 1 = tier.id
        · rw [validateCore_success name tier a c dp cs b0 brest idx hcs hidx hid] at h
          simp at h
        · rw [validateCore_mismatch name tier a c dp cs b0 brest idx hcs hidx hid] at h
          exact absurd h (by decide)
  · intro hcs
    exact validateCore_invalid_checksum name tier a b c dp cs hcs

/-- Witness for claim C9 at a concrete 5-segment Godfather key. -/
theorem c9_checksum_over_first_four_witness :
    (validate_membership_key (("GODAAA∞CAAAA∞1834∞QRST∞D19").data)
        = .ok (.invalid (("Invalid checksum").data)) ↔
      (("D19").data) ≠ calculate_checksum ((("GODAAA").data) ++ (("CAAAA").data)
        ++ (("1834").data) ++ (("QRST").data))) ∧
    (("QRST").data).take ((("QRST").data).length - 2)
      ++ (("QRST").data).drop ((("QRST").data).length - 2) = ("QRST").data :=
  c9_checksum_over_first_four (("GODAAA∞CAAAA∞1834∞QRST∞D19").data)
    (("GODFATHER").data) ⟨3, ("Godfather").data, '∞', ("GOD").data⟩
    (("GODAAA").data) (("CAAAA").data) (("1834").data) (("QRST").data) (("D19").data)
    (by decide) (by decide)

/-- Claim C10: decode imposes no constraints beyond the tier match, the
checksum match, and segment B starting with the tier's rank letter: any
such 5-segment key is reported valid, whatever segment C contains (a
malformed time signature only degrades the reported date to `none`) and
whatever characters the other segments hold. -/
theorem c10_decode_minimal_constraints (key name : PyStr) (tier : Tier)
    (a c dp cs brest : PyStr)
    (hf : findTier USER_TIERS key = some (name, tier))
    (hs : splitOnChar tier.separator key = [a, encode_tier tier.id :: brest, c, dp, cs])
    (hcs : cs = calculate_checksum (a ++ (encode_tier tier.id :: brest) ++ c ++ dp)) :
    validate_membership_key key =
      .ok (.valid (("user_").data ++ a.drop 3) name tier.id
        (parseRegistrationDate c) (dp.drop (dp.length - 2))) := by
  obtain ⟨hli, hli2, _⟩ := encode_tier_facts (findTier_mem hf)
  rw [validate_eq_of_split5 key name tier a _ c dp cs hf hs]
  exact validateCore_success name tier a c dp cs _ brest (tier.id - 1) hcs hli hli2

/-- Witness for claim C10: the key `"ARK-A-ZZ-PQ-2014"` has an
unparsable segment C of the wrong format, yet validates as a valid
Archivist key with an absent registration date. -/
theorem c10_decode_minimal_constraints_witness :
    validate_membership_key (("ARK-A-ZZ-PQ-2014").data) =
      .ok (.valid (("user_").data ++ (("ARK").data).drop 3) (("ARCHIVIST").data) 1
        (parseRegistrationDate (("ZZ").data)) ((("PQ").data).drop ((("PQ").data).length - 2))) :=
  c10_decode_minimal_constraints (("ARK-A-ZZ-PQ-2014").data)
    (("ARCHIVIST").data) ⟨1, ("Archivist").data, '-', ("ARK").data⟩
    (("ARK").data) (("ZZ").data) (("PQ").data) (("2014").data) []
    (by decide) (by decide) (by decide)

/-- Witness for the amended claim C2 at the concrete input `"Z"`. -/
theorem c2_checksum_hex_shape_witness :
    2 ≤ (calculate_checksum (("Z").data)).length ∧
      (calculate_checksum (("Z").data)).length ≤ 4 :=
  ⟨(c2_checksum_hex_shape (("Z").data)).1, (c2_checksum_hex_shape (("Z").data)).2.1⟩
